import Mathlib

/-!
Shallow embedding of `src/core_affinity.c` (moonbit-core-affinity).

The C file defines two functions, `moonbit_get_affinity_mask : void -> uint64_t`
and `moonbit_set_affinity_mask : uint64_t -> bool`, with four mutually exclusive
platform backends (Windows / Linux / macOS / fallback) selected by preprocessor
conditionals.  Each backend is embedded as a Lean function.  Machine `uint64_t`
values are `Nat` with `% 2 ^ 64` applied where the C type forces truncation.

The OS calls each backend makes (`GetProcessAffinityMask`,
`SetThreadAffinityMask`, `sched_getaffinity`, `sched_setaffinity`,
`sysctlbyname`, `thread_policy_set`) are external to the repository.  They are
modelled as explicit environment records passed to each backend, so that a
backend's code is a pure function of the environment, and — for claims about a
bind-then-query sequence — as small state machines whose transition rules
follow the documented semantics of those OS calls as the spec describes them.
The macOS binder additionally returns the list of affinity tags it handed to
`thread_policy_set`, so that "issues exactly one policy request" is a statement
about the function's value.
-/

namespace CoreAffinity

/-! ### Windows backend (`#ifdef _WIN32`, lines 9-23)

Model of 64-bit Windows, where `DWORD_PTR` is 64 bits wide so the
`(DWORD_PTR)mask` cast is the identity on the `uint64_t` value. -/

/-- Results of the Windows OS calls the backend makes:
`getProcessAffinityMask` is `some m` when `GetProcessAffinityMask` succeeds
writing process mask `m`, `none` when it fails; `setThreadAffinityMask m` is
the return value of `SetThreadAffinityMask(GetCurrentThread(), m)`
(the previous thread mask on success, `0` on failure). -/
structure WinEnv where
  getProcessAffinityMask : Option Nat
  setThreadAffinityMask : Nat → Nat

/-- `moonbit_get_affinity_mask`, Windows backend (lines 12-19). -/
def win_get_affinity_mask (env : WinEnv) : Nat :=
  match env.getProcessAffinityMask with
  | some processAffinityMask => processAffinityMask % 2 ^ 64
  | none => 0

/-- `moonbit_set_affinity_mask`, Windows backend (lines 21-23):
`return SetThreadAffinityMask(GetCurrentThread(), (DWORD_PTR)mask) != 0;`. -/
def win_set_affinity_mask (env : WinEnv) (mask : Nat) : Bool :=
  decide (env.setThreadAffinityMask (mask % 2 ^ 64) ≠ 0)

/-! ### Linux backend (`#elif defined(__linux__)`, lines 25-53) -/

/-- glibc's `CPU_SETSIZE` for `cpu_set_t`. -/
def CPU_SETSIZE : Nat := 1024

/-- Results of the Linux OS calls the backend makes: `schedGetaffinity` is
`some s` when `sched_getaffinity(0, sizeof(cpu_set_t), &mask)` succeeds
filling the native CPU set `s` (a set of CPU indices, encoded as the `Nat`
whose bit `i` is membership of CPU `i`), `none` when it fails;
`schedSetaffinity s` is whether `sched_setaffinity(0, sizeof(cpu_set_t), &mask)`
returns `0` (success) for the native set `s`. -/
structure LinuxEnv where
  schedGetaffinity : Option Nat
  schedSetaffinity : Nat → Bool

/-- `moonbit_get_affinity_mask`, Linux backend (lines 30-42): on success the
loop `for (int i = 0; i < 64 && i < CPU_SETSIZE; i++)` ORs `1ULL << i` into
`result` whenever `CPU_ISSET(i, &mask)`. -/
def linux_get_affinity_mask (env : LinuxEnv) : Nat :=
  match env.schedGetaffinity with
  | some s =>
      (List.range (min 64 CPU_SETSIZE)).foldl
        (fun result i => if s.testBit i then result ||| 2 ^ i else result) 0
  | none => 0

/-- The native `cpu_set_t` built by `moonbit_set_affinity_mask` on Linux
(lines 45-51): `CPU_ZERO`, then `CPU_SET(i, &mask)` for each `i < 64` with
`(mask_val >> i) & 1` set. -/
def linux_build_cpuset (mask_val : Nat) : Nat :=
  (List.range 64).foldl
    (fun s i => if (mask_val >>> i) % 2 = 1 then s ||| 2 ^ i else s) 0

/-- `moonbit_set_affinity_mask`, Linux backend (lines 44-53):
`return sched_setaffinity(0, sizeof(cpu_set_t), &mask) == 0;`. -/
def linux_set_affinity_mask (env : LinuxEnv) (mask_val : Nat) : Bool :=
  env.schedSetaffinity (linux_build_cpuset (mask_val % 2 ^ 64))

/-! ### Linux OS state model

For the claims about a `bind` followed by a `query`, the thread's OS-level
affinity set must be tracked across the two calls.  The Linux system is a CPU
count; the OS state is the calling thread's current affinity set. -/

/-- A Linux machine with `nCpus` online logical CPUs (indices `0..nCpus-1`). -/
structure LinuxSys where
  nCpus : Nat

/-- The set of online CPUs of `sys`, as a bitmask. -/
def LinuxSys.online (sys : LinuxSys) : Nat := 2 ^ sys.nCpus - 1

/-- Modelled from the spec: the documented behaviour of `sched_setaffinity`
(external OS call, not part of the repository).  The requested set is
intersected with the online CPUs; if that intersection is empty the call fails
(EINVAL, per the spec `bind_affinity(0)` "must return false — no CPU named")
and the thread's affinity is unchanged; otherwise it succeeds and the thread's
affinity becomes the intersection.  Returns (succeeded, new thread affinity). -/
def schedSetaffinityModel (sys : LinuxSys) (req st : Nat) : Bool × Nat :=
  if req &&& sys.online ≠ 0 then (true, req &&& sys.online) else (false, st)

/-- The Linux call environment seen by the backend when the thread's current
affinity set is `st`: `sched_getaffinity` succeeds returning `st`, and
`sched_setaffinity` answers according to `schedSetaffinityModel`. -/
def linuxEnvOf (sys : LinuxSys) (st : Nat) : LinuxEnv :=
  ⟨some st, fun req => (schedSetaffinityModel sys req st).1⟩

/-- One `bind_affinity` call on Linux, with the OS thread-affinity state
threaded through: returns the boolean result and the new state. -/
def linux_bind (sys : LinuxSys) (st mask : Nat) : Bool × Nat :=
  schedSetaffinityModel sys (linux_build_cpuset (mask % 2 ^ 64)) st

/-- `bind_affinity(mask)` immediately followed by `query_affinity()` on Linux:
the bind's boolean result, paired with the queried mask. -/
def linux_bind_then_query (sys : LinuxSys) (st mask : Nat) : Bool × Nat :=
  ((linux_bind sys st mask).1,
    linux_get_affinity_mask (linuxEnvOf sys (linux_bind sys st mask).2))

/-! ### Windows OS state model -/

/-- Windows OS affinity state: the process-wide affinity mask and the calling
thread's affinity mask. -/
structure WinOS where
  processMask : Nat
  threadMask : Nat

/-- Modelled from the spec: the documented behaviour of
`SetThreadAffinityMask` (external OS call, not part of the repository).  Per
the spec's glossary, thread affinity is a restriction on one thread only, so
the process-wide mask is untouched.  The call succeeds iff the requested mask
is nonzero and a subset of the process affinity mask; on success it returns
the thread's previous affinity mask and installs the new one, on failure it
returns `0` and changes nothing. -/
def setThreadAffinityMaskModel (os : WinOS) (m : Nat) : Nat × WinOS :=
  if m ≠ 0 ∧ m &&& os.processMask = m then
    (os.threadMask, { os with threadMask := m })
  else (0, os)

/-- The Windows call environment seen by the backend in OS state `os`. -/
def winEnvOf (os : WinOS) : WinEnv :=
  ⟨some os.processMask, fun m => (setThreadAffinityMaskModel os m).1⟩

/-- One `bind_affinity` call on Windows, with the OS state threaded through:
returns the boolean result and the new state. -/
def win_bind (os : WinOS) (mask : Nat) : Bool × WinOS :=
  (decide ((setThreadAffinityMaskModel os (mask % 2 ^ 64)).1 ≠ 0),
    (setThreadAffinityMaskModel os (mask % 2 ^ 64)).2)

/-- `bind_affinity(mask)` immediately followed by `query_affinity()` on
Windows: the bind's boolean result, paired with the queried mask. -/
def win_bind_then_query (os : WinOS) (mask : Nat) : Bool × Nat :=
  ((win_bind os mask).1, win_get_affinity_mask (winEnvOf (win_bind os mask).2))

/-! ### macOS backend (`#elif defined(__APPLE__)`, lines 55-100) -/

/-- Results of the macOS OS calls the backend makes: `logicalCpu` is `some c`
when `sysctlbyname("hw.logicalcpu", ...)` succeeds writing `c`, `none` when it
fails; `arm64` is `some v` when `sysctlbyname("hw.optional.arm64", ...)`
succeeds writing `v`, `none` when it fails; `threadPolicySet i` is the
`kern_return_t` of `thread_policy_set` for affinity tag `i`. -/
structure MacEnv where
  logicalCpu : Option Nat
  arm64 : Option Nat
  threadPolicySet : Nat → Int

/-- `moonbit_get_affinity_mask`, macOS backend (lines 62-73). -/
def macos_get_affinity_mask (env : MacEnv) : Nat :=
  match env.logicalCpu with
  | some count => if count ≥ 64 then 0xFFFFFFFFFFFFFFFF else 2 ^ count - 1
  | none => 0

/-- The scan `for (int i = 0; i < 64; i++) if ((mask >> i) & 1) ...` of the
Intel path (lines 88-98): starting at index `i` with `r` indices left to try,
the first index whose mask bit is set, or `none` if the loop falls through. -/
def firstBitAux (mask : Nat) : Nat → Nat → Option Nat
  | _, 0 => none
  | i, r + 1 => if (mask >>> i) % 2 = 1 then some i else firstBitAux mask (i + 1) r

/-- The Intel path of `moonbit_set_affinity_mask` (lines 85-99): on the first
set bit `i` of the mask it calls
`thread_policy_set(mach_thread, THREAD_AFFINITY_POLICY, &{i}, ...)`, ignores
the returned `kern_return_t result`, and returns `true`; if no bit is set it
returns `false`.  The second component lists the affinity tags passed to
`thread_policy_set`, in order. -/
def macos_intel_path (env : MacEnv) (mask : Nat) : Bool × List Nat :=
  match firstBitAux mask 0 64 with
  | some i =>
      let _result := env.threadPolicySet i
      (true, [i])
  | none => (false, [])

/-- `moonbit_set_affinity_mask`, macOS backend (lines 75-100):
`int is_arm64 = 0; if (sysctlbyname("hw.optional.arm64", &is_arm64, ...) == 0
&& is_arm64) return true;` then the Intel path.  The second component lists
the affinity tags passed to `thread_policy_set`. -/
def macos_set_affinity_mask (env : MacEnv) (mask : Nat) : Bool × List Nat :=
  match env.arm64 with
  | some is_arm64 =>
      if is_arm64 ≠ 0 then (true, [])
      else macos_intel_path env (mask % 2 ^ 64)
  | none => macos_intel_path env (mask % 2 ^ 64)

/-! ### Fallback backend (`#else`, lines 102-110) -/

/-- `moonbit_get_affinity_mask`, unsupported-platform backend: `return 0;`. -/
def fallback_get_affinity_mask : Nat := 0

/-- `moonbit_set_affinity_mask`, unsupported-platform backend:
`return false;`. -/
def fallback_set_affinity_mask (_mask : Nat) : Bool := false

/-- `a` is a sub-bitmask of `b`: every set bit of `a` is set in `b`. -/
def submask (a b : Nat) : Prop := ∀ i, a.testBit i = true → b.testBit i = true

/-! ### Helper lemmas -/

/-- The C bit test `(m >> i) & 1` is `Nat.testBit`. -/
lemma shiftRight_mod_two_eq_one_iff (m i : Nat) :
    (m >>> i) % 2 = 1 ↔ m.testBit i = true := by
  rw [Nat.shiftRight_eq_div_pow, Nat.testBit_to_div_mod, decide_eq_true_eq]

/-- Bit `j` of a loop that ORs `2 ^ i` into the accumulator for each
`i < n` satisfying `p`. -/
lemma foldl_set_bits_testBit (p : Nat → Prop) [DecidablePred p] (n : Nat) :
    ∀ a j, ((List.range n).foldl (fun s i => if p i then s ||| 2 ^ i else s) a).testBit j
      = (a.testBit j || (decide (j < n) && decide (p j))) := by
  induction n with
  | zero => simp
  | succ n ih =>
    intro a j
    rw [List.range_succ, List.foldl_append, List.foldl_cons, List.foldl_nil]
    by_cases hp : p n
    · rw [if_pos hp, Nat.testBit_lor, ih, Nat.testBit_two_pow]
      by_cases hj : j = n
      · subst hj; simp [hp]
      · have hlt : (j < n + 1) ↔ (j < n) := by omega
        simp [hlt, Ne.symm hj]
    · rw [if_neg hp, ih]
      by_cases hj : j = n
      · subst hj; simp [hp]
      · have hlt : (j < n + 1) ↔ (j < n) := by omega
        simp [hlt]

lemma linux_build_cpuset_testBit (m j : Nat) :
    (linux_build_cpuset m).testBit j = (decide (j < 64) && m.testBit j) := by
  unfold linux_build_cpuset
  rw [foldl_set_bits_testBit (fun i => (m >>> i) % 2 = 1) 64 0 j]
  simp [shiftRight_mod_two_eq_one_iff]

/-- A number is nonzero mod `2 ^ n` exactly when it has a set bit below `n`. -/
lemma mod_two_pow_ne_zero_iff (m n : Nat) :
    m % 2 ^ n ≠ 0 ↔ ∃ j, j < n ∧ m.testBit j = true := by
  constructor
  · intro h
    by_contra hc
    push_neg at hc
    refine h (Nat.eq_of_testBit_eq fun i => ?_)
    rw [Nat.testBit_mod_two_pow, Nat.zero_testBit]
    by_cases hi : i < n
    · simpa [hi] using (hc i hi)
    · simp [hi]
  · rintro ⟨j, hj, hbit⟩ h0
    have := congrArg (fun x => x.testBit j) h0
    simp [Nat.testBit_mod_two_pow, Nat.zero_testBit, hj, hbit] at this

/-- Everything `firstBitAux` returns is a set bit, in range, and minimal. -/
lemma firstBitAux_some (mask : Nat) :
    ∀ r i j, firstBitAux mask i r = some j →
      i ≤ j ∧ j < i + r ∧ mask.testBit j = true ∧
        ∀ k, i ≤ k → k < j → mask.testBit k = false := by
  intro r
  induction r with
  | zero => intro i j h; simp [firstBitAux] at h
  | succ r ih =>
    intro i j h
    rw [firstBitAux] at h
    by_cases hb : (mask >>> i) % 2 = 1
    · rw [if_pos hb, Option.some_inj] at h
      subst h
      exact ⟨le_refl i, by omega, (shiftRight_mod_two_eq_one_iff mask i).mp hb,
        fun k hk hk' => absurd (lt_of_le_of_lt hk hk') (lt_irrefl i)⟩
    · rw [if_neg hb] at h
      obtain ⟨h1, h2, h3, h4⟩ := ih (i + 1) j h
      refine ⟨by omega, by omega, h3, fun k hk hk' => ?_⟩
      rcases Nat.eq_or_lt_of_le hk with hk | hk
      · subst hk
        simpa [shiftRight_mod_two_eq_one_iff] using hb
      · exact h4 k hk hk'

/-- `firstBitAux` finds the first set bit in its window. -/
lemma firstBitAux_first (mask : Nat) :
    ∀ r i j, i ≤ j → j < i + r → mask.testBit j = true →
      (∀ k, i ≤ k → k < j → mask.testBit k = false) →
      firstBitAux mask i r = some j := by
  intro r
  induction r with
  | zero => intro i j h1 h2; omega
  | succ r ih =>
    intro i j h1 h2 h3 h4
    rw [firstBitAux]
    rcases Nat.eq_or_lt_of_le h1 with h | h
    · subst h
      rw [if_pos ((shiftRight_mod_two_eq_one_iff mask i).mpr h3)]
    · rw [if_neg (by simpa [shiftRight_mod_two_eq_one_iff] using h4 i (le_refl i) h)]
      exact ih (i + 1) j h (by omega) h3 (fun k hk hk' => h4 k (by omega) hk')

/-- `firstBitAux` returns `none` exactly when no bit in its window is set. -/
lemma firstBitAux_none_iff (mask : Nat) :
    ∀ r i, firstBitAux mask i r = none ↔
      ∀ j, i ≤ j → j < i + r → mask.testBit j = false := by
  intro r
  induction r with
  | zero => intro i; simp [firstBitAux]; omega
  | succ r ih =>
    intro i
    rw [firstBitAux]
    by_cases hb : (mask >>> i) % 2 = 1
    · rw [if_pos hb]
      simp only [reduceCtorEq, false_iff]
      push_neg
      exact ⟨i, le_refl i, by omega,
        by simp [(shiftRight_mod_two_eq_one_iff mask i).mp hb]⟩
    · rw [if_neg hb, ih]
      constructor
      · intro h j hj hj'
        rcases Nat.eq_or_lt_of_le hj with h' | h'
        · subst h'; simpa [shiftRight_mod_two_eq_one_iff] using hb
        · exact h j h' (by omega)
      · intro h j hj hj'
        exact h j (by omega) (by omega)

/-- Bit `i` of the Linux query result, when `sched_getaffinity` succeeds
returning the native set `s`. -/
lemma linux_get_affinity_mask_testBit (env : LinuxEnv) (s : Nat)
    (h : env.schedGetaffinity = some s) (i : Nat) :
    (linux_get_affinity_mask env).testBit i =
      (decide (i < 64) && decide (i < CPU_SETSIZE) && s.testBit i) := by
  unfold linux_get_affinity_mask
  rw [h]
  rw [foldl_set_bits_testBit (fun i => s.testBit i = true) (min 64 CPU_SETSIZE) 0 i]
  simp only [Nat.zero_testBit, Bool.false_or, lt_min_iff]
  by_cases h64 : i < 64 <;> by_cases hcs : i < CPU_SETSIZE <;>
    by_cases hbit : s.testBit i = true <;> simp [h64, hcs, hbit]

/-- On a Mac where the `hw.optional.arm64` sysctl fails or reports 0, the
binder takes the Intel path. -/
lemma macos_set_not_arm (env : MacEnv) (mask : Nat)
    (h : env.arm64 = none ∨ env.arm64 = some 0) :
    macos_set_affinity_mask env mask = macos_intel_path env (mask % 2 ^ 64) := by
  unfold macos_set_affinity_mask
  rcases h with h | h
  · rw [h]
  · rw [h]
    simp

/-- The Intel path reports success exactly on a nonzero (truncated) mask. -/
lemma macos_intel_path_fst (env : MacEnv) (t : Nat) (ht : t < 2 ^ 64) :
    ((macos_intel_path env t).1 = true ↔ t ≠ 0) := by
  unfold macos_intel_path
  cases hfb : firstBitAux t 0 64 with
  | some i =>
    obtain ⟨-, -, hbit, -⟩ := firstBitAux_some t 64 0 i hfb
    constructor
    · intro _ h0
      rw [h0, Nat.zero_testBit] at hbit
      exact Bool.false_ne_true hbit
    · intro _
      rfl
  | none =>
    have hall := (firstBitAux_none_iff t 64 0).mp hfb
    have ht0 : t = 0 := by
      refine Nat.eq_of_testBit_eq fun i => ?_
      rw [Nat.zero_testBit]
      by_cases hi : i < 64
      · exact hall i (Nat.zero_le i) (by omega)
      · exact Nat.testBit_lt_two_pow
          (lt_of_lt_of_le ht (Nat.pow_le_pow_right (by norm_num) (by omega)))
    simp [ht0]

/-! ### Claim theorems -/

/-- C1: On Intel macOS (the `hw.optional.arm64` sysctl fails or reports 0),
`bind_affinity(mask)` scans the mask from bit 0 upward; on the first set bit
`j` it issues exactly one `thread_policy_set` request with affinity tag `j`
and returns `true`; and the boolean result and issued requests never depend on
the `kern_return_t` values `thread_policy_set` produces. -/
theorem C1_intel_macos_first_bit :
    (∀ (env : MacEnv) (mask j : Nat),
        env.arm64 = none ∨ env.arm64 = some 0 →
        j < 64 → mask.testBit j = true →
        (∀ k, k < j → mask.testBit k = false) →
        macos_set_affinity_mask env mask = (true, [j])) ∧
    (∀ (lc a : Option Nat) (pol pol' : Nat → Int) (mask : Nat),
        macos_set_affinity_mask ⟨lc, a, pol⟩ mask =
          macos_set_affinity_mask ⟨lc, a, pol'⟩ mask) := by
  constructor
  · intro env mask j harm hj hbit hmin
    have hfb : firstBitAux (mask % 2 ^ 64) 0 64 = some j := by
      apply firstBitAux_first
      · exact Nat.zero_le j
      · omega
      · rw [Nat.testBit_mod_two_pow]
        simp [hj, hbit]
      · intro k hk0 hkj
        rw [Nat.testBit_mod_two_pow]
        simp [hmin k hkj]
    rw [macos_set_not_arm env mask harm]
    unfold macos_intel_path
    rw [hfb]
  · intro lc a pol pol' mask
    cases hfb : firstBitAux (mask % 2 ^ 64) 0 64 <;>
      cases a with
      | none => simp [macos_set_affinity_mask, macos_intel_path, hfb]
      | some v =>
        by_cases hv : v ≠ 0 <;>
          simp [macos_set_affinity_mask, macos_intel_path, hv, hfb]

/-- Witness for C1 at a concrete input: on a non-ARM Mac, binding mask
`0b1100` issues one policy request for core 2 and returns `true`. -/
theorem C1_witness :
    macos_set_affinity_mask ⟨some 4, none, fun _ => 0⟩ 12 = (true, [2]) :=
  C1_intel_macos_first_bit.1 ⟨some 4, none, fun _ => 0⟩ 12 2 (Or.inl rfl)
    (by decide) (by decide) (by intro k hk; interval_cases k <;> decide)

/-- C2: On Apple Silicon macOS (the `hw.optional.arm64` sysctl succeeds with a
nonzero value), `bind_affinity(mask)` returns `true` for every mask, issuing
no `thread_policy_set` request. -/
theorem C2_apple_silicon_always_true (env : MacEnv) (mask v : Nat)
    (h : env.arm64 = some v) (hv : v ≠ 0) :
    macos_set_affinity_mask env mask = (true, []) := by
  simp [macos_set_affinity_mask, h, hv]

/-- Witness for C2 at a concrete input: on Apple Silicon even the all-zero
mask binds "successfully" with no policy request. -/
theorem C2_witness :
    macos_set_affinity_mask ⟨some 8, some 1, fun _ => 0⟩ 0 = (true, []) :=
  C2_apple_silicon_always_true ⟨some 8, some 1, fun _ => 0⟩ 0 1 rfl one_ne_zero

/-- C3: On macOS, `query_affinity` returns `2 ^ c - 1` when the logical-CPU
count query succeeds with `c < 64`, the all-ones 64-bit mask when `c ≥ 64`,
and `0` when the query fails. -/
theorem C3_macos_query_low_bits :
    (∀ (env : MacEnv) (c : Nat), env.logicalCpu = some c → c < 64 →
        macos_get_affinity_mask env = 2 ^ c - 1) ∧
    (∀ (env : MacEnv) (c : Nat), env.logicalCpu = some c → 64 ≤ c →
        macos_get_affinity_mask env = 2 ^ 64 - 1) ∧
    (∀ env : MacEnv, env.logicalCpu = none → macos_get_affinity_mask env = 0) := by
  refine ⟨?_, ?_, ?_⟩
  · intro env c h hc
    unfold macos_get_affinity_mask
    rw [h]
    simp only [ge_iff_le]
    rw [if_neg (show ¬ 64 ≤ c by omega)]
  · intro env c h hc
    unfold macos_get_affinity_mask
    rw [h]
    simp only [ge_iff_le]
    rw [if_pos hc]
    norm_num
  · intro env h
    unfold macos_get_affinity_mask
    rw [h]

/-- Witness for C3 at a concrete input: with 4 logical CPUs the synthesized
mask is `0b1111`. -/
theorem C3_witness :
    macos_get_affinity_mask ⟨some 4, none, fun _ => 0⟩ = 2 ^ 4 - 1 :=
  C3_macos_query_low_bits.1 ⟨some 4, none, fun _ => 0⟩ 4 rfl (by omega)

/-- C4: `bind_affinity(0)` returns `false` on Linux, on Windows and on Intel
macOS, and `true` on Apple Silicon.  The Linux and Windows results go through
the modelled OS calls: `sched_setaffinity` of the empty set fails, and
`SetThreadAffinityMask(_, 0)` returns `0`. -/
theorem C4_bind_empty_mask :
    (∀ (sys : LinuxSys) (st : Nat),
        linux_set_affinity_mask (linuxEnvOf sys st) 0 = false) ∧
    (∀ os : WinOS, win_set_affinity_mask (winEnvOf os) 0 = false) ∧
    (∀ env : MacEnv, env.arm64 = none ∨ env.arm64 = some 0 →
        macos_set_affinity_mask env 0 = (false, [])) ∧
    (∀ (env : MacEnv) (v : Nat), env.arm64 = some v → v ≠ 0 →
        macos_set_affinity_mask env 0 = (true, [])) := by
  refine ⟨?_, ?_, ?_, ?_⟩
  · intro sys st
    have h0 : linux_build_cpuset 0 = 0 := by decide
    simp [linux_set_affinity_mask, linuxEnvOf, h0, schedSetaffinityModel,
      Nat.zero_and]
  · intro os
    simp [win_set_affinity_mask, winEnvOf, setThreadAffinityMaskModel]
  · intro env h
    rw [macos_set_not_arm env 0 h]
    have hfb : firstBitAux (0 % 2 ^ 64) 0 64 = none := by decide
    unfold macos_intel_path
    rw [hfb]
  · intro env v h hv
    simp [macos_set_affinity_mask, h, hv]

/-- Witness for C4 at concrete inputs on all four platforms. -/
theorem C4_witness :
    linux_set_affinity_mask (linuxEnvOf ⟨4⟩ 15) 0 = false ∧
    win_set_affinity_mask (winEnvOf ⟨15, 15⟩) 0 = false ∧
    macos_set_affinity_mask ⟨some 4, none, fun _ => 0⟩ 0 = (false, []) ∧
    macos_set_affinity_mask ⟨some 8, some 1, fun _ => 0⟩ 0 = (true, []) :=
  ⟨C4_bind_empty_mask.1 ⟨4⟩ 15, C4_bind_empty_mask.2.1 ⟨15, 15⟩,
   C4_bind_empty_mask.2.2.1 ⟨some 4, none, fun _ => 0⟩ (Or.inl rfl),
   C4_bind_empty_mask.2.2.2 ⟨some 8, some 1, fun _ => 0⟩ 1 rfl one_ne_zero⟩

/-- C5 counterexample: on an Intel Mac with 4 logical CPUs, the mask `32`
(only bit 5 set, beyond the CPU count) binds with result `true` and one
policy request for core 5, while the same mask restricted to bit indices
below the CPU count (`32 &&& (2 ^ 4 - 1) = 0`) yields `false` and no
request — so bits beyond the CPU count are not silently ignored, and the
two calls are not identical in result or effect. -/
theorem C5_counterexample :
    macos_set_affinity_mask ⟨some 4, some 0, fun _ => 0⟩ 32 = (true, [5]) ∧
    macos_set_affinity_mask ⟨some 4, some 0, fun _ => 0⟩ (32 &&& (2 ^ 4 - 1)) =
      (false, []) := by
  constructor <;> decide

/-- C5 amended: every backend ignores bits at index ≥ 64 — `bind_affinity(m)`
behaves exactly like `bind_affinity(m mod 2 ^ 64)` — but bits between the
actual CPU count and 64 are forwarded to the OS, and on Intel macOS they are
not ignored: there the boolean result is `true` exactly when the 64-bit
truncation of the mask is nonzero, whatever the CPU count. -/
theorem C5_amended_mod64 :
    (∀ (env : WinEnv) (mask : Nat),
        win_set_affinity_mask env mask = win_set_affinity_mask env (mask % 2 ^ 64)) ∧
    (∀ (env : LinuxEnv) (mask : Nat),
        linux_set_affinity_mask env mask =
          linux_set_affinity_mask env (mask % 2 ^ 64)) ∧
    (∀ (env : MacEnv) (mask : Nat),
        macos_set_affinity_mask env mask =
          macos_set_affinity_mask env (mask % 2 ^ 64)) ∧
    (∀ mask : Nat,
        fallback_set_affinity_mask mask =
          fallback_set_affinity_mask (mask % 2 ^ 64)) ∧
    (∀ (env : MacEnv) (mask : Nat), env.arm64 = none ∨ env.arm64 = some 0 →
        ((macos_set_affinity_mask env mask).1 = true ↔ mask % 2 ^ 64 ≠ 0)) := by
  refine ⟨?_, ?_, ?_, ?_, ?_⟩
  · intro env mask
    unfold win_set_affinity_mask
    rw [Nat.mod_mod_of_dvd mask dvd_rfl]
  · intro env mask
    unfold linux_set_affinity_mask
    rw [Nat.mod_mod_of_dvd mask dvd_rfl]
  · intro env mask
    unfold macos_set_affinity_mask
    rw [Nat.mod_mod_of_dvd mask dvd_rfl]
  · intro mask
    rfl
  · intro env mask h
    rw [macos_set_not_arm env mask h]
    exact macos_intel_path_fst env (mask % 2 ^ 64)
      (Nat.mod_lt mask (Nat.pos_pow_of_pos 64 (by norm_num)))

/-- Witness for C5's amended theorem at a concrete input. -/
theorem C5_witness :
    ((macos_set_affinity_mask ⟨some 4, some 0, fun _ => 0⟩ 32).1 = true ↔
      32 % 2 ^ 64 ≠ 0) :=
  C5_amended_mod64.2.2.2.2 ⟨some 4, some 0, fun _ => 0⟩ 32 (Or.inr rfl)

/-- C6: On Linux, `query_affinity` sets bit `i` of its result exactly when
`i < 64`, `i < CPU_SETSIZE` and CPU `i` is a member of the native set
returned by `sched_getaffinity`; it returns `0` when that call fails. -/
theorem C6_linux_query_bits :
    (∀ (env : LinuxEnv) (s : Nat), env.schedGetaffinity = some s →
        ∀ i, (linux_get_affinity_mask env).testBit i =
          (decide (i < 64) && decide (i < CPU_SETSIZE) && s.testBit i)) ∧
    (∀ env : LinuxEnv, env.schedGetaffinity = none →
        linux_get_affinity_mask env = 0) := by
  constructor
  · exact fun env s h i => linux_get_affinity_mask_testBit env s h i
  · intro env h
    unfold linux_get_affinity_mask
    rw [h]

/-- Witness for C6 at a concrete input: querying with native set `{0, 2}`
reports bit 0 set. -/
theorem C6_witness :
    (linux_get_affinity_mask ⟨some 5, fun _ => false⟩).testBit 0 =
      (decide (0 < 64) && decide (0 < CPU_SETSIZE) && (5 : Nat).testBit 0) :=
  C6_linux_query_bits.1 ⟨some 5, fun _ => false⟩ 5 rfl 0

/-- C7: On unsupported platforms the fallback backend has `query_affinity`
return `0` and `bind_affinity` return `false` for every mask. -/
theorem C7_unsupported_platform :
    fallback_get_affinity_mask = 0 ∧
      ∀ mask, fallback_set_affinity_mask mask = false :=
  ⟨rfl, fun _ => rfl⟩

/-- Witness for C7 at a concrete input. -/
theorem C7_witness : fallback_set_affinity_mask 5 = false :=
  C7_unsupported_platform.2 5

/-- C8 counterexample: on Windows with process affinity `0b1111` (4 CPUs) and
current thread mask `0b1111`, `bind_affinity(0b0011)` succeeds, but the
immediately following `query_affinity()` reads the process-wide mask and
returns `0b1111`, which is not a subset of `0b0011` masked to the CPU count:
bit 2 is set in the queried mask but not in the bound mask. -/
theorem C8_counterexample :
    win_bind_then_query ⟨15, 15⟩ 3 = (true, 15) ∧ ¬ submask 15 (3 &&& 15) :=
  ⟨by decide, fun h => absurd (h 2 (by decide)) (by decide)⟩

/-- C8 amended: the bind-then-query subset property holds on Linux, where the
query reads back the thread's enforced affinity set; it fails on Windows,
where the query reads the process-wide mask that a thread-level bind does not
change.  On Linux: for every mask with a set bit inside the actual CPU range,
`bind_affinity(mask)` succeeds and the immediately following
`query_affinity()` returns a sub-bitmask of the mask restricted to the CPU
count. -/
theorem C8_amended_linux_bind_query_subset (sys : LinuxSys) (st mask : Nat)
    (h : ∃ i, i < 64 ∧ i < sys.nCpus ∧ mask.testBit i = true) :
    (linux_bind_then_query sys st mask).1 = true ∧
      submask (linux_bind_then_query sys st mask).2
        (mask &&& (2 ^ sys.nCpus - 1)) := by
  obtain ⟨i, hi64, hin, hbit⟩ := h
  have hreqbit : ∀ j, (linux_build_cpuset (mask % 2 ^ 64)).testBit j =
      (decide (j < 64) && mask.testBit j) := by
    intro j
    rw [linux_build_cpuset_testBit, Nat.testBit_mod_two_pow]
    by_cases h64 : j < 64 <;> simp [h64]
  have honline : ∀ j, sys.online.testBit j = decide (j < sys.nCpus) := fun j =>
    Nat.testBit_two_pow_sub_one sys.nCpus j
  have hne : linux_build_cpuset (mask % 2 ^ 64) &&& sys.online ≠ 0 := by
    intro h0
    have hb := congrArg (fun x => x.testBit i) h0
    simp only [Nat.testBit_land, Nat.zero_testBit] at hb
    rw [hreqbit, honline] at hb
    simp [hi64, hin, hbit] at hb
  have hbind : linux_bind sys st mask =
      (true, linux_build_cpuset (mask % 2 ^ 64) &&& sys.online) := by
    unfold linux_bind schedSetaffinityModel
    rw [if_pos hne]
  constructor
  · simp only [linux_bind_then_query, hbind]
  · intro j hj
    simp only [linux_bind_then_query, hbind] at hj
    rw [linux_get_affinity_mask_testBit
        (linuxEnvOf sys (linux_build_cpuset (mask % 2 ^ 64) &&& sys.online))
        (linux_build_cpuset (mask % 2 ^ 64) &&& sys.online) rfl j] at hj
    simp only [Bool.and_eq_true, decide_eq_true_eq, Nat.testBit_land] at hj
    obtain ⟨⟨hj64, hjcs⟩, hjbit⟩ := hj
    rw [hreqbit, honline] at hjbit
    simp only [Bool.and_eq_true, decide_eq_true_eq] at hjbit
    obtain ⟨⟨-, hjm⟩, hjn⟩ := hjbit
    rw [Nat.testBit_land, Nat.testBit_two_pow_sub_one]
    simp [hjm, hjn]

/-- Witness for C8's amended theorem: on a 4-CPU Linux box with prior thread
affinity `0b1111`, binding `0b0011` succeeds and the subsequent query's
result is contained in `0b0011`. -/
theorem C8_witness :
    (linux_bind_then_query ⟨4⟩ 15 3).1 = true ∧
      submask (linux_bind_then_query ⟨4⟩ 15 3).2 (3 &&& (2 ^ 4 - 1)) :=
  C8_amended_linux_bind_query_subset ⟨4⟩ 15 3 ⟨0, by decide, by decide, by decide⟩

/-- C9: calling `bind_affinity` twice in direct succession with the same mask
yields the same boolean result on every platform.  On Linux and Windows the
OS affinity state the first call may change is threaded into the second call;
on macOS and the fallback the backend reads no mutable state at all, so the
two calls are the same pure application. -/
theorem C9_bind_idempotent :
    (∀ (sys : LinuxSys) (st mask : Nat),
        (linux_bind sys st mask).1 =
          (linux_bind sys (linux_bind sys st mask).2 mask).1) ∧
    (∀ (os : WinOS) (mask : Nat), os.threadMask ≠ 0 →
        (win_bind os mask).1 = (win_bind (win_bind os mask).2 mask).1) ∧
    (∀ (env : MacEnv) (mask : Nat),
        macos_set_affinity_mask env mask = macos_set_affinity_mask env mask) ∧
    (∀ mask : Nat,
        fallback_set_affinity_mask mask = fallback_set_affinity_mask mask) := by
  refine ⟨?_, ?_, fun _ _ => rfl, fun _ => rfl⟩
  · intro sys st mask
    unfold linux_bind schedSetaffinityModel
    generalize linux_build_cpuset (mask % 2 ^ 64) = req
    by_cases hc : req &&& sys.online ≠ 0 <;> simp [hc]
  · intro os mask h
    unfold win_bind setThreadAffinityMaskModel
    generalize mask % 2 ^ 64 = m
    by_cases hc : m ≠ 0 ∧ m &&& os.processMask = m
    · simp [hc.1, hc.2, h]
    · simp [hc]

/-- Witness for C9 at a concrete input (Windows conjunct, which carries the
nonzero-previous-thread-mask hypothesis). -/
theorem C9_witness :
    (win_bind ⟨15, 15⟩ 3).1 = (win_bind (win_bind ⟨15, 15⟩ 3).2 3).1 :=
  C9_bind_idempotent.2.1 ⟨15, 15⟩ 3 (by decide)

/-- C10: the Apple Silicon / Intel distinction is decided per call by the
`hw.optional.arm64` sysctl: when it succeeds with a nonzero value the binder
returns `true` immediately with no policy request; when it fails or reports
zero the Intel logic runs, and the result is `true` exactly when the 64-bit
mask is nonzero. -/
theorem C10_arm64_runtime_dispatch :
    (∀ (env : MacEnv) (mask v : Nat), env.arm64 = some v → v ≠ 0 →
        macos_set_affinity_mask env mask = (true, [])) ∧
    (∀ (env : MacEnv) (mask : Nat), env.arm64 = none ∨ env.arm64 = some 0 →
        ((macos_set_affinity_mask env mask).1 = true ↔ mask % 2 ^ 64 ≠ 0)) := by
  constructor
  · intro env mask v h hv
    simp [macos_set_affinity_mask, h, hv]
  · intro env mask h
    rw [macos_set_not_arm env mask h]
    exact macos_intel_path_fst env (mask % 2 ^ 64) (Nat.mod_lt mask (by positivity))

/-- Witness for C10 at a concrete input: with the sysctl failing (Intel), a
nonzero mask binds successfully. -/
theorem C10_witness :
    ((macos_set_affinity_mask ⟨some 4, none, fun _ => 1⟩ 7).1 = true ↔
      7 % 2 ^ 64 ≠ 0) :=
  C10_arm64_runtime_dispatch.2 ⟨some 4, none, fun _ => 1⟩ 7 (Or.inl rfl)

end CoreAffinity
